import Mathlib

/-!
Verification of the typing-dispatch core of the AutoTyper repository.

The repository contains two variants of the same application:
`typer.py` (PyQt5, class `TypingWorker` / `AutoTyperWindow`) and
`auto_typer.py` (tkinter, class `ModernAutoTyper` / `HotkeyDialog`).
Both are embedded below.

Python strings are modelled as `List Char`; Python `float` seconds are
modelled as exact rationals `ℚ` (the code only adds, multiplies, compares
and clamps them).  The thread-shared stop flag (`threading.Event` in
`typer.py`, the `is_typing` attribute in `auto_typer.py`) is monotone
during one run: once set it stays set until the run is over.  It is
therefore modelled by an optional threshold `cancelAt : Option Nat`: the
n-th dynamic check of the flag reads true exactly when `cancelAt = some k`
with `k ≤ n`.  A possible exception from the key-emission capability
(`pyautogui`) is modelled likewise by `failAt : Option Nat` over the
index of the attempted emission.
-/

/-! ## Python string primitives (over `List Char`) -/

/-- Python whitespace for `str.strip` / `str.rstrip` (ASCII range, which is
all the source ever feeds these functions). -/
def isPySpace (c : Char) : Bool :=
  c = ' ' || c = '\t' || c = '\n' || c = '\r' || c = '\x0b' || c = '\x0c'

/-- Python `str.lstrip()`. -/
def pyLstripWs (s : List Char) : List Char := s.dropWhile isPySpace

/-- Python `str.rstrip()`. -/
def pyRstripWs (s : List Char) : List Char := (s.reverse.dropWhile isPySpace).reverse

/-- Python `str.strip()`. -/
def pyStrip (s : List Char) : List Char := pyRstripWs (pyLstripWs s)

/-- Python `str.rstrip("\n")`: remove trailing newline characters only. -/
def pyRstripNl (s : List Char) : List Char :=
  (s.reverse.dropWhile (fun c => c = '\n')).reverse

/-- Python `str.lower()` (ASCII case mapping, which covers every string the
source lowercases). -/
def pyLower (s : List Char) : List Char := s.map Char.toLower

/-- Python `str.capitalize()`: first character upper-cased, the rest
lower-cased. -/
def pyCapitalize : List Char → List Char
  | [] => []
  | c :: rest => c.toUpper :: rest.map Char.toLower

/-- Python `str.split(sep)` for a one-character separator: keeps empty
pieces, and the empty string splits to `[""]`. -/
def pySplit (sep : Char) : List Char → List (List Char)
  | [] => [[]]
  | c :: rest =>
    let r := pySplit sep rest
    if c = sep then [] :: r
    else
      match r with
      | [] => [[c]]
      | g :: gs => (c :: g) :: gs

/-- Python `str.splitlines()` restricted to the line terminator `'\n'` (the
only terminator occurring in this repository's data): `'\n'` is a
terminator, so a trailing newline produces no trailing empty line, and the
empty string has no lines. -/
def pySplitlines : List Char → List (List Char)
  | [] => []
  | c :: rest =>
    if c = '\n' then [] :: pySplitlines rest
    else
      match pySplitlines rest with
      | [] => [[c]]
      | g :: gs => (c :: g) :: gs

/-- Python `sep.join(parts)`. -/
def pyJoin (sep : List Char) : List (List Char) → List Char
  | [] => []
  | [x] => x
  | x :: y :: rest => x ++ sep ++ pyJoin sep (y :: rest)

/-- Python `"\n".join(parts)`. -/
def pyJoinNl (parts : List (List Char)) : List Char := pyJoin [ '\n' ] parts

/-! ## Hotkey string handling

`typer.py` lines 57-88: `pretty_hotkey_display` and `to_pynput_hotkey`;
`auto_typer.py` line 782-784: `ModernAutoTyper.format_hotkey_for_display`. -/

/-- Source: `typer.py` `pretty_hotkey_display`: `"+".join(part.capitalize() for part
in hk_text.split("+"))`. -/
def pretty_hotkey_display (hk : List Char) : List Char :=
  pyJoin [ '+' ] ((pySplit '+' hk).map pyCapitalize)

/-- The token list of `typer.py` `to_pynput_hotkey`:
`[p.strip().lower() for p in hk_text.split("+") if p.strip()]`. -/
def hotkeyParts (hk : List Char) : List (List Char) :=
  (pySplit '+' hk).filterMap (fun p =>
    let q := pyStrip p
    if q = [] then none else some (pyLower q))

/-- The modifier conversion of `to_pynput_hotkey`: `ctrl`/`control` to
`<ctrl>`, `alt` to `<alt>`, `shift` to `<shift>`, anything else wrapped in
angle brackets verbatim. -/
def convertMod (p : List Char) : List Char :=
  if p = ("ctrl").toList ∨ p = ("control").toList then ("<ctrl>").toList
  else if p = ("alt").toList then ("<alt>").toList
  else if p = ("shift").toList then ("<shift>").toList
  else [ '<' ] ++ p ++ [ '>' ]

/-- All tokens but the last are converted as modifiers; the final key token
is appended unwrapped. -/
def convParts : List (List Char) → List (List Char)
  | [] => []
  | [k] => [k]
  | p :: q :: rest => convertMod p :: convParts (q :: rest)

/-- Source: `typer.py` `to_pynput_hotkey`: raises `ValueError("Empty hotkey")` when
no nonempty token remains after splitting on `+` and trimming, returns the
bare token for exactly one token, otherwise converts the modifiers and
joins with `+`. -/
def to_pynput_hotkey (hk : List Char) : Except (List Char) (List Char) :=
  match hotkeyParts hk with
  | [] => Except.error (("Empty hotkey").toList)
  | [p] => Except.ok p
  | p :: q :: rest => Except.ok (pyJoin [ '+' ] (convParts (p :: q :: rest)))

/-- Source: `auto_typer.py` `format_hotkey_for_display`:
`hotkey.replace('<', '').replace('>', '').replace('+', '+').capitalize()`.
Replacing a single character by the empty string is a filter, and
`replace('+', '+')` is the identity. -/
def format_hotkey_for_display (hotkey : List Char) : List Char :=
  pyCapitalize ((hotkey.filter (fun c => c ≠ '<')).filter (fun c => c ≠ '>'))

/-! ## Formatters

`typer.py` lines 111-121 (`TypingWorker.format_python`, `format_c_style`,
`format_text`) and `auto_typer.py` lines 665-704
(`format_python_code` … `format_generic_code`). -/

/-- Source: `typer.py` `TypingWorker.format_python`: split into lines, strip the
trailing whitespace of each line, rejoin. -/
def format_python (txt : List Char) : List Char :=
  pyJoinNl ((pySplitlines txt).map pyRstripWs)

/-- Source: `typer.py` `TypingWorker.format_c_style`: identical body to
`format_python`. -/
def format_c_style (txt : List Char) : List Char :=
  pyJoinNl ((pySplitlines txt).map pyRstripWs)

/-- Source: `typer.py` `TypingWorker.format_text`: `txt.rstrip("\n")`. -/
def format_text (txt : List Char) : List Char := pyRstripNl txt

/-- Source: `auto_typer.py` `format_python_code`: splits on `'\n'`, drops lines that
are empty after `strip()`, and rebuilds each kept line as
`' ' * (len(line) - len(line.lstrip())) + line.strip()`. -/
def format_python_code (text : List Char) : List Char :=
  pyJoinNl ((pySplit '\n' text).filterMap (fun line =>
    let stripped := pyStrip line
    if stripped = [] then none
    else some (List.replicate (line.length - (pyLstripWs line).length) ' ' ++ stripped)))

/-- Source: `auto_typer.py` `format_generic_code` (the `comment_prefix` parameter is
never used in its body): same transform as `format_python_code`. -/
def format_generic_code (text : List Char) : List Char :=
  pyJoinNl ((pySplit '\n' text).filterMap (fun line =>
    let stripped := pyStrip line
    if stripped = [] then none
    else some (List.replicate (line.length - (pyLstripWs line).length) ' ' ++ stripped)))

/-- Source: `auto_typer.py` `format_cpp_code`: delegates to `format_generic_code`. -/
def format_cpp_code (text : List Char) : List Char := format_generic_code text

/-- Source: `auto_typer.py` `format_java_code`: delegates to `format_generic_code`. -/
def format_java_code (text : List Char) : List Char := format_generic_code text

/-- Source: `auto_typer.py` `format_javascript_code`: delegates to
`format_generic_code`. -/
def format_javascript_code (text : List Char) : List Char := format_generic_code text

/-- Source: `auto_typer.py` `format_csharp_code`: delegates to
`format_generic_code`. -/
def format_csharp_code (text : List Char) : List Char := format_generic_code text

/-! ## Key events and the cancellation / failure model -/

/-- One synthetic key: a literal character sent with `pyautogui.write`, or a
named key sent with `pyautogui.press`. -/
inductive Key
  | char (c : Char)
  | tab
  | enter
deriving DecidableEq

/-- One observable action of a run: a key emission or one `time.sleep`
call, with its duration in seconds. -/
inductive Event
  | key (k : Key)
  | sleep (d : ℚ)
deriving DecidableEq

/-- The running counters of one emission run: `ci` counts the dynamic
checks of the stop flag so far, `ei` the attempted key emissions so far,
and `evs` the trace of events in order. -/
structure St where
  ci : Nat
  ei : Nat
  evs : List Event
deriving DecidableEq

/-- The stop flag read at check number `i`: set exactly when the stop
request arrived at or before that check (`cancelAt = some k`, `k ≤ i`). -/
def cancelSet (cancelAt : Option Nat) (i : Nat) : Bool :=
  match cancelAt with
  | none => false
  | some k => decide (k ≤ i)

/-- Whether the key-emission capability raises at emission number `i`. -/
def emitRaises (failAt : Option Nat) (i : Nat) : Bool :=
  match failAt with
  | none => false
  | some j => decide (j = i)

/-- The key events of a trace, in order. -/
def keysOf (evs : List Event) : List Key :=
  evs.filterMap (fun e => match e with | Event.key k => some k | Event.sleep _ => none)

/-! ## `typer.py` Emission Engine (`TypingWorker`, lines 94-206) -/

/-- Source: `typer.py` `TypingWorker.__init__` stores the text, the language, the
stop flag, and the speed and start delay clamped with `max(0.0, ...)`. -/
structure Worker where
  text : List Char
  speed : ℚ
  language : List Char
  start_delay : ℚ
deriving DecidableEq

/-- Source: `typer.py` `TypingWorker.__init__`: `self.speed = max(0.0, float(speed))`
and `self.start_delay = max(0.0, float(start_delay))`. -/
def mkTypingWorker (text : List Char) (speed : ℚ) (language : List Char)
    (start_delay : ℚ) : Worker :=
  { text := text, speed := max 0 speed, language := language,
    start_delay := max 0 start_delay }

/-- The language dispatch at the top of `TypingWorker.run`: `python` uses
`format_python`, the four C-style names use `format_c_style`, everything
else uses `format_text`. -/
def workerFormat (w : Worker) : List Char :=
  if w.language = ("python").toList then format_python w.text
  else if w.language = ("c++").toList ∨ w.language = ("java").toList ∨
      w.language = ("javascript").toList ∨ w.language = ("c#").toList then
    format_c_style w.text
  else format_text w.text

/-- Iteration count of the start-delay wait loop of `TypingWorker.run`
(lines 136-143): `waited` grows by `wait_step = 0.05` from `0.0`, and the
loop body runs while `waited < start_delay`, hence `⌈start_delay / 0.05⌉ =
⌈20 * start_delay⌉` times. -/
def fuelCountdown (d : ℚ) : Nat := (Int.ceil (20 * d)).toNat

/-- The start-delay wait loop of `TypingWorker.run`: each iteration first
reads the stop flag (returning "Stopped before typing" when it is set) and
then sleeps `0.05` seconds.  The while condition is accounted for by the
iteration count `fuelCountdown`. -/
def countdownLoop (cancelAt : Option Nat) : Nat → St → Bool × St
  | 0, st => (false, st)
  | n + 1, st =>
    if cancelSet cancelAt st.ci then (true, { st with ci := st.ci + 1 })
    else
      countdownLoop cancelAt n
        { st with ci := st.ci + 1, evs := st.evs ++ [Event.sleep (1 / 20)] }

/-- Upper bound on the iterations of the inter-keystroke sleep loop of
`TypingWorker.run` (lines 182-189): `slept` grows by `min(0.01, speed -
slept)` from `0.0`, so the condition `slept < speed` holds for exactly
`⌈100 * speed⌉` iterations; one spare unit of fuel is harmless because the
condition is re-checked. -/
def fuelChar (speed : ℚ) : Nat := (Int.ceil (100 * speed)).toNat + 1

/-- The inter-keystroke sleep loop of `TypingWorker.run`: while
`slept < speed`, read the stop flag (returning "Stopped by user during
typing" when set), sleep `min(0.01, speed - slept)`, add the step to
`slept`. -/
def charSleepLoop (cancelAt : Option Nat) (speed : ℚ) :
    Nat → ℚ → St → Bool × St
  | 0, _, st => (false, st)
  | n + 1, slept, st =>
    if slept < speed then
      if cancelSet cancelAt st.ci then (true, { st with ci := st.ci + 1 })
      else
        let step := min (1 / 100 : ℚ) (speed - slept)
        charSleepLoop cancelAt speed n (slept + step)
          { st with ci := st.ci + 1, evs := st.evs ++ [Event.sleep step] }
    else (false, st)

/-- Upper bound on the iterations of the after-newline sleep loop of
`TypingWorker.run` (lines 195-202): `slept` grows by `0.01` while
`slept < nl_delay`. -/
def fuelNl (d : ℚ) : Nat := (Int.ceil (100 * d)).toNat + 1

/-- The after-newline sleep loop of `TypingWorker.run`: while
`slept < nl_delay`, read the stop flag, sleep `0.01`, add `0.01` to
`slept`. -/
def nlSleepLoop (cancelAt : Option Nat) (nlDelay : ℚ) :
    Nat → ℚ → St → Bool × St
  | 0, _, st => (false, st)
  | n + 1, slept, st =>
    if slept < nlDelay then
      if cancelSet cancelAt st.ci then (true, { st with ci := st.ci + 1 })
      else
        nlSleepLoop cancelAt nlDelay n (slept + 1 / 100)
          { st with ci := st.ci + 1, evs := st.evs ++ [Event.sleep (1 / 100)] }
    else (false, st)

/-- How one iteration of the typing loops ends early: the stop flag was
observed, or the emission capability raised. -/
inductive ExitKind
  | stopped
  | raised
deriving DecidableEq

/-- A character `ch == "\t"` is sent as `pyautogui.press("tab")`, anything else as
`pyautogui.write(ch)`. -/
def charKey (c : Char) : Key := if c = '\t' then Key.tab else Key.char c

/-- The per-character loop of `TypingWorker.run` (lines 171-189): for each
character, read the stop flag; emit the key (`tab` for a tab character,
the literal character otherwise); run the interruptible inter-keystroke
sleep. -/
def typeChars (cancelAt failAt : Option Nat) (speed : ℚ) :
    List Char → St → Option ExitKind × St
  | [], st => (none, st)
  | c :: rest, st =>
    if cancelSet cancelAt st.ci then
      (some ExitKind.stopped, { st with ci := st.ci + 1 })
    else
      let st1 : St := { st with ci := st.ci + 1 }
      if emitRaises failAt st1.ei then
        (some ExitKind.raised, { st1 with ei := st1.ei + 1 })
      else
        let st2 : St :=
          { st1 with ei := st1.ei + 1, evs := st1.evs ++ [Event.key (charKey c)] }
        let r := charSleepLoop cancelAt speed (fuelChar speed) 0 st2
        if r.1 then (some ExitKind.stopped, r.2)
        else typeChars cancelAt failAt speed rest r.2

/-- The per-line loop of `TypingWorker.run` (lines 160-202): for each line,
read the stop flag, type the line's characters, and after every line
except the last emit `enter` and run the interruptible newline sleep of
`nl_delay = max(0.001, speed * 0.6)` seconds. -/
def typeLines (cancelAt failAt : Option Nat) (speed : ℚ) :
    List (List Char) → St → Option ExitKind × St
  | [], st => (none, st)
  | line :: rest, st =>
    if cancelSet cancelAt st.ci then
      (some ExitKind.stopped, { st with ci := st.ci + 1 })
    else
      let r := typeChars cancelAt failAt speed line { st with ci := st.ci + 1 }
      match r.1 with
      | some e => (some e, r.2)
      | none =>
        match rest with
        | [] => (none, r.2)
        | _ :: _ =>
          let st1 := r.2
          if emitRaises failAt st1.ei then
            (some ExitKind.raised, { st1 with ei := st1.ei + 1 })
          else
            let st2 : St :=
              { st1 with ei := st1.ei + 1, evs := st1.evs ++ [Event.key Key.enter] }
            let nlDelay := max (1 / 1000 : ℚ) (speed * (6 / 10))
            let s := nlSleepLoop cancelAt nlDelay (fuelNl nlDelay) 0 st2
            if s.1 then (some ExitKind.stopped, s.2)
            else typeLines cancelAt failAt speed rest s.2

/-- The outcome of one `TypingWorker.run`, named after the run's single
signal: `finished("Stopped before typing ...")`, `finished("Stopped by
user during typing.")`, `finished("Typing completed successfully.")`, or
`error("Typing error: ...")`. -/
inductive Outcome
  | completed
  | stoppedBeforeStart
  | stoppedDuringTyping
  | failed
deriving DecidableEq

/-- Source: `typer.py` `TypingWorker.run`: format by language, run the start-delay
countdown, split the formatted text on `"\n"`, and type it line by line.
The informational window-focus block (lines 146-157, 166-169) emits no key
and never aborts, so it contributes nothing to the trace. -/
def runWorker (w : Worker) (cancelAt failAt : Option Nat) : Outcome × St :=
  let text := workerFormat w
  let c := countdownLoop cancelAt (fuelCountdown w.start_delay)
    { ci := 0, ei := 0, evs := [] }
  if c.1 then (Outcome.stoppedBeforeStart, c.2)
  else
    let r := typeLines cancelAt failAt w.speed (pySplit '\n' text) c.2
    match r.1 with
    | none => (Outcome.completed, r.2)
    | some ExitKind.stopped => (Outcome.stoppedDuringTyping, r.2)
    | some ExitKind.raised => (Outcome.failed, r.2)

/-! ## `typer.py` Typing Session Controller (`AutoTyperWindow`) -/

/-- The session state of `AutoTyperWindow`: `self.is_typing` and the shared
`threading.Event` stop flag `self.stop_event` (modelled by whether it is
currently set). -/
structure SessionState where
  is_typing : Bool
  stop_event : Bool
deriving DecidableEq

/-- Source: `AutoTyperWindow.handle_typing_finished` (lines 542-546): set
`is_typing` to `False`, show the message, clear the stop event. -/
def handle_typing_finished (_s : SessionState) : SessionState :=
  { is_typing := false, stop_event := false }

/-- Source: `AutoTyperWindow.handle_typing_error` (lines 548-553): set `is_typing`
to `False`, show the error, clear the stop event. -/
def handle_typing_error (_s : SessionState) : SessionState :=
  { is_typing := false, stop_event := false }

/-- Dispatch: `TypingWorker.run` emits exactly one signal on every path: `error` when
the body raised (outcome `failed`), `finished` otherwise; the window
dispatches it to the corresponding handler. -/
def sessionAfterRun (s : SessionState) (o : Outcome) : SessionState :=
  match o with
  | Outcome.failed => handle_typing_error s
  | _ => handle_typing_finished s

/-- Source: `AutoTyperWindow.on_start_clicked` (lines 453-464) followed by the
synchronous part of `start_typing` (lines 507-540): a no-op with status
"Typing already in progress." when `is_typing` holds; a warning dialog
when the text is blank; otherwise clear the stop event, set `is_typing`,
and spawn exactly one worker run (the returned flag). -/
def on_start_clicked (s : SessionState) (text : List Char) :
    SessionState × String × Bool :=
  if s.is_typing then (s, "Typing already in progress.", false)
  else if pyStrip text = [] then (s, "Please enter some text to type.", false)
  else ({ is_typing := true, stop_event := false }, "Preparing to type...", true)

/-- Source: `AutoTyperWindow.on_stop_clicked` (lines 466-471): set the stop event
while typing, otherwise report that nothing is running. -/
def on_stop_clicked (s : SessionState) : SessionState × String :=
  if s.is_typing then ({ s with stop_event := true }, "Stopping...")
  else (s, "No typing in progress.")

/-! ## `typer.py` hotkey application (`AutoTyperWindow.on_apply_hotkeys`,
lines 488-502) -/

/-- The hotkey configuration owned by the window: the two stored combo
strings and a generation counter standing for the live
`pynput.GlobalHotKeys` registration (`restart_hotkey_listener` replaces the
registration, bumping the generation). -/
structure HkState where
  start_hotkey : List Char
  stop_hotkey : List Char
  listenerGen : Nat
deriving DecidableEq

/-- How `on_apply_hotkeys` ends: an error dialog for a missing combo, an
error dialog for equal combos, or a successful application. -/
inductive ApplyResult
  | emptyError
  | equalError
  | applied
deriving DecidableEq

/-- Source: `AutoTyperWindow.on_apply_hotkeys`: read both inputs with
`.strip().lower()`; error dialog and return when either is empty; error
dialog and return when they are equal; otherwise store both combos, save
settings and restart the listener. -/
def on_apply_hotkeys (startInput stopInput : List Char) (s : HkState) :
    ApplyResult × HkState :=
  let start_hk := pyLower (pyStrip startInput)
  let stop_hk := pyLower (pyStrip stopInput)
  if start_hk = [] ∨ stop_hk = [] then (ApplyResult.emptyError, s)
  else if start_hk = stop_hk then (ApplyResult.equalError, s)
  else (ApplyResult.applied,
    { start_hotkey := start_hk, stop_hotkey := stop_hk,
      listenerGen := s.listenerGen + 1 })

/-! ## `auto_typer.py` controller (`ModernAutoTyper`) and dialog -/

/-- The controller state of `ModernAutoTyper`: `self.is_typing`, the queue
of `root.after`-scheduled `countdown_timer` callbacks (each carrying its
remaining whole-second delay), the number of typing threads spawned by
`begin_typing`, and the status line. -/
structure AutoCtl where
  is_typing : Bool
  pending : List Nat
  runs : Nat
  status : String
deriving DecidableEq

/-- Source: `ModernAutoTyper.begin_typing` (lines 598-606): set `is_typing`, set
the status, and start one typing thread.  It performs no
already-in-progress check of its own. -/
def auto_begin_typing (s : AutoCtl) : AutoCtl :=
  { s with
    is_typing := true
    runs := s.runs + 1
    status := "Typing in progress... Press Stop hotkey to cancel" }

/-- Source: `ModernAutoTyper.countdown_timer` (lines 590-596): while `delay > 0`,
show the countdown status and schedule itself one second later with
`delay - 1`; at zero, call `begin_typing`.  The delay is modelled in whole
seconds, matching the 1-second `root.after(1000, ...)` tick.  No stop flag
is read anywhere in the countdown. -/
def auto_countdown_timer (delay : Nat) (s : AutoCtl) : AutoCtl :=
  if 0 < delay then
    { s with
      pending := s.pending ++ [delay - 1]
      status := "Starting in ... seconds... Click in target window!" }
  else auto_begin_typing s

/-- Source: `ModernAutoTyper.start_typing` (lines 570-588): warn when the stripped
text is empty; report "Typing is already in progress!" when `is_typing`
holds; otherwise enter the countdown with the configured delay. -/
def auto_start_typing (text : List Char) (delay : Nat) (s : AutoCtl) : AutoCtl :=
  if pyStrip text = [] then
    { s with status := "Please enter some text to type!" }
  else if s.is_typing then
    { s with status := "Typing is already in progress!" }
  else
    auto_countdown_timer delay
      { s with status := "Starting in ... seconds... Click in target window!" }

/-- The tkinter event loop delivering the next scheduled `countdown_timer`
callback. -/
def auto_fire_next (s : AutoCtl) : AutoCtl :=
  match s.pending with
  | [] => s
  | d :: rest => auto_countdown_timer d { s with pending := rest }

/-- Source: `ModernAutoTyper.stop_typing` (lines 716-722): clear `is_typing` when
set (the running thread observes this flag), otherwise report that nothing
is running.  It does not touch scheduled countdown callbacks. -/
def auto_stop_typing (s : AutoCtl) : AutoCtl :=
  if s.is_typing then { s with is_typing := false, status := "Stopped by user" }
  else { s with status := "No typing in progress" }

/-- Source: `ModernAutoTyper.type_text` (lines 608-618): whether the body
completed or raised, the `finally` block clears `is_typing`. -/
def auto_type_text_finally (s : AutoCtl) : AutoCtl := { s with is_typing := false }

/-! ## `auto_typer.py` emission (`ModernAutoTyper.type_normal_text`,
lines 620-663) -/

/-- One character of `type_normal_text`: a tab is `press('tab')` followed
by `sleep(speed * 0.5)`; any other character is `write(char)` followed by
`sleep(speed)`. -/
def autoCharEvents (speed : ℚ) (c : Char) : List Event :=
  if c = '\t' then [Event.key Key.tab, Event.sleep (speed * (1 / 2))]
  else [Event.key (Key.char c), Event.sleep speed]

/-- The per-character loop of `type_normal_text`: each iteration first
reads `self.is_typing` (`break` when cleared), then emits the character's
events.  Returns the next check index and the trace. -/
def autoTypeChars (cancelAt : Option Nat) (speed : ℚ) :
    List Char → Nat → Nat × List Event
  | [], ci => (ci, [])
  | c :: rest, ci =>
    if cancelSet cancelAt ci then (ci + 1, [])
    else
      let r := autoTypeChars cancelAt speed rest (ci + 1)
      (r.1, autoCharEvents speed c ++ r.2)

/-- The per-line loop of `type_normal_text`: each iteration first reads
`self.is_typing` (`break` when cleared); the window-focus check
(`check_window_focus`, lines 706-714) always returns `True` and is
omitted; after the line's characters, every line except the last gets
`press('enter')` and `sleep(speed * 0.8)`.  A `break` out of the inner
character loop does not skip the newline block: Python's `break` only
leaves the inner loop, and the outer loop stops at its own next check. -/
def autoTypeLines (cancelAt : Option Nat) (speed : ℚ) :
    List (List Char) → Nat → Nat × List Event
  | [], ci => (ci, [])
  | line :: rest, ci =>
    if cancelSet cancelAt ci then (ci + 1, [])
    else
      let r := autoTypeChars cancelAt speed line (ci + 1)
      let nl : List Event :=
        match rest with
        | [] => []
        | _ :: _ => [Event.key Key.enter, Event.sleep (speed * (8 / 10))]
      let r2 := autoTypeLines cancelAt speed rest r.1
      (r2.1, r.2 ++ nl ++ r2.2)

/-- The language dispatch of `type_normal_text` (lines 622-635): `text`
passes through, the five code languages use their formatters, anything
else passes through. -/
def autoFormatFor (lang : List Char) (text : List Char) : List Char :=
  if lang = ("text").toList then text
  else if lang = ("python").toList then format_python_code text
  else if lang = ("c++").toList then format_cpp_code text
  else if lang = ("java").toList then format_java_code text
  else if lang = ("javascript").toList then format_javascript_code text
  else if lang = ("c#").toList then format_csharp_code text
  else text

/-- Source: `ModernAutoTyper.type_normal_text`: format by language, split on
`'\n'`, and type line by line. -/
def type_normal_text (cancelAt : Option Nat) (speed : ℚ) (lang : List Char)
    (text : List Char) : List Event :=
  (autoTypeLines cancelAt speed (pySplit '\n' (autoFormatFor lang text)) 0).2

/-! ## `auto_typer.py` `HotkeyDialog.ok_clicked` (lines 1063-1079) -/

/-- The pynput form built by `ok_clicked`:
`"<" + ">+<".join(combo.split("+")) + ">"`. -/
def dialogPynputForm (s : List Char) : List Char :=
  [ '<' ] ++ pyJoin ((">+<").toList) (pySplit '+' s) ++ [ '>' ]

/-- Source: `HotkeyDialog.ok_clicked`: read both entries with `.strip().lower()`;
error dialog (dialog stays open, `result` untouched) when either is empty
or when they are equal; otherwise store the pynput forms in `result` and
close the dialog.  The returned flag is whether the dialog was closed. -/
def ok_clicked (startVar stopVar : List Char)
    (result : Option (List Char × List Char)) :
    Option (List Char × List Char) × Bool :=
  let start := pyLower (pyStrip startVar)
  let stop := pyLower (pyStrip stopVar)
  if start = [] ∨ stop = [] then (result, false)
  else if start = stop then (result, false)
  else (some (dialogPynputForm start, dialogPynputForm stop), true)

/-- The keys a line of text turns into, in order, when typed by
`TypingWorker.run`. -/
def lineKeys (l : List Char) : List Key := l.map charKey

/-- The key sequence the per-line loop produces for a list of lines with no
cancellation: each line's characters in order, with `enter` after every
line except the last. -/
def expectedLinesKeys : List (List Char) → List Key
  | [] => []
  | l :: rest =>
    match rest with
    | [] => lineKeys l
    | _ :: _ => lineKeys l ++ Key.enter :: expectedLinesKeys rest

/-- An idle `ModernAutoTyper` controller, as after startup. -/
def autoIdle : AutoCtl :=
  { is_typing := false, pending := [], runs := 0, status := "Ready" }

/-! ## Helper lemmas -/

theorem keysOf_append (a b : List Event) : keysOf (a ++ b) = keysOf a ++ keysOf b := by
  simp [keysOf]

@[simp] theorem cancelSet_none (i : Nat) : cancelSet none i = false := rfl

@[simp] theorem emitRaises_none (i : Nat) : emitRaises none i = false := rfl

/-- A full, uncancelled countdown performs one stop-flag check per
iteration and sleeps exactly `0.05` seconds each time. -/
theorem countdownLoop_none (n : Nat) :
    ∀ st : St, countdownLoop none n st =
      (false, { st with
        ci := st.ci + n
        evs := st.evs ++ List.replicate n (Event.sleep (1 / 20)) }) := by
  induction n with
  | zero => intro st; simp [countdownLoop]
  | succ n ih =>
    intro st
    rw [countdownLoop, cancelSet_none]
    simp only [Bool.false_eq_true, if_false, ih]
    have h1 : st.ci + 1 + n = st.ci + (n + 1) := by omega
    rw [h1, List.append_assoc, List.singleton_append, ← List.replicate_succ]

theorem keysOf_replicate_sleep (n : Nat) (d : ℚ) :
    keysOf (List.replicate n (Event.sleep d)) = [] := by
  induction n with
  | zero => rfl
  | succ n ih => simp [List.replicate_succ, keysOf]

/-- An uncancelled inter-keystroke sleep never reports a stop and adds no
key event. -/
theorem charSleepLoop_none (speed : ℚ) (n : Nat) :
    ∀ slept st, (charSleepLoop none speed n slept st).1 = false ∧
      keysOf (charSleepLoop none speed n slept st).2.evs = keysOf st.evs := by
  induction n with
  | zero => intro slept st; simp [charSleepLoop]
  | succ n ih =>
    intro slept st
    rw [charSleepLoop]
    split
    · rw [cancelSet_none]
      simp only [Bool.false_eq_true, if_false]
      refine ⟨(ih _ _).1, ?_⟩
      rw [(ih _ _).2]
      simp [keysOf_append, keysOf]
    · simp

/-- An uncancelled newline sleep never reports a stop and adds no key
event. -/
theorem nlSleepLoop_none (nlDelay : ℚ) (n : Nat) :
    ∀ slept st, (nlSleepLoop none nlDelay n slept st).1 = false ∧
      keysOf (nlSleepLoop none nlDelay n slept st).2.evs = keysOf st.evs := by
  induction n with
  | zero => intro slept st; simp [nlSleepLoop]
  | succ n ih =>
    intro slept st
    rw [nlSleepLoop]
    split
    · rw [cancelSet_none]
      simp only [Bool.false_eq_true, if_false]
      refine ⟨(ih _ _).1, ?_⟩
      rw [(ih _ _).2]
      simp [keysOf_append, keysOf]
    · simp

/-- With no cancellation and no emission failure, the per-character loop
types every character of the line, in order. -/
theorem typeChars_none (speed : ℚ) (cs : List Char) :
    ∀ st, (typeChars none none speed cs st).1 = none ∧
      keysOf (typeChars none none speed cs st).2.evs = keysOf st.evs ++ lineKeys cs := by
  induction cs with
  | nil => intro st; simp [typeChars, lineKeys]
  | cons c rest ih =>
    intro st
    rw [typeChars]
    simp only [cancelSet_none, emitRaises_none, Bool.false_eq_true, if_false,
      (charSleepLoop_none speed (fuelChar speed) 0 _).1]
    refine ⟨(ih _).1, ?_⟩
    rw [(ih _).2, (charSleepLoop_none speed (fuelChar speed) 0 _).2]
    simp [keysOf_append, keysOf, lineKeys]

/-- With no cancellation and no emission failure, the per-line loop types
every line in order with `enter` after every line except the last. -/
theorem typeLines_none (speed : ℚ) (ls : List (List Char)) :
    ∀ st, (typeLines none none speed ls st).1 = none ∧
      keysOf (typeLines none none speed ls st).2.evs =
        keysOf st.evs ++ expectedLinesKeys ls := by
  induction ls with
  | nil => intro st; simp [typeLines, expectedLinesKeys]
  | cons line rest ih =>
    intro st
    rw [typeLines]
    simp only [cancelSet_none, Bool.false_eq_true, if_false]
    rw [(typeChars_none speed line _).1]
    cases rest with
    | nil =>
      simp only []
      refine ⟨trivial, ?_⟩
      rw [(typeChars_none speed line _).2]
      simp [expectedLinesKeys]
    | cons l2 rest2 =>
      simp only [emitRaises_none, Bool.false_eq_true, if_false,
        (nlSleepLoop_none _ _ 0 _).1]
      refine ⟨(ih _).1, ?_⟩
      rw [(ih _).2, (nlSleepLoop_none _ _ 0 _).2]
      rw [keysOf_append, (typeChars_none speed line _).2]
      simp [keysOf, expectedLinesKeys, lineKeys, List.append_assoc]

/-- With no cancellation and no emission failure, a worker run completes
and its key trace is exactly the formatted text's lines joined by
`enter`. -/
theorem runWorker_none (w : Worker) :
    (runWorker w none none).1 = Outcome.completed ∧
      keysOf (runWorker w none none).2.evs =
        expectedLinesKeys (pySplit '\n' (workerFormat w)) := by
  rw [runWorker]
  simp only [countdownLoop_none, Bool.false_eq_true, if_false]
  rw [(typeLines_none w.speed (pySplit '\n' (workerFormat w)) _).1]
  simp only []
  refine ⟨trivial, ?_⟩
  rw [(typeLines_none w.speed (pySplit '\n' (workerFormat w)) _).2]
  simp [keysOf_replicate_sleep, keysOf]

/-- A stop request that arrives before the countdown's checks are over is
observed at its check, with only sleep events before it. -/
theorem countdownLoop_cancel (k : Nat) (n : Nat) :
    ∀ st : St, st.ci ≤ k → k < st.ci + n →
      countdownLoop (some k) n st =
        (true, { st with
          ci := k + 1
          evs := st.evs ++ List.replicate (k - st.ci) (Event.sleep (1 / 20)) }) := by
  induction n with
  | zero => intro st h1 h2; omega
  | succ n ih =>
    intro st h1 h2
    rw [countdownLoop]
    by_cases hk : k ≤ st.ci
    · have hek : k = st.ci := by omega
      rw [cancelSet]
      simp only [decide_eq_true_eq, if_pos hk]
      subst hek
      simp
    · rw [cancelSet]
      simp only [decide_eq_true_eq, if_neg hk]
      rw [ih _ (by simp; omega) (by simp; omega)]
      have h3 : k - st.ci = (k - (st.ci + 1)) + 1 := by omega
      simp only []
      rw [h3, List.append_assoc, List.singleton_append, ← List.replicate_succ]

/-- Claim C1: for every typing run and every outcome (completion, stop, or
an exception from the key emitter), the completion callback sets the
session's `is_typing` flag to false and clears the stop event, so
`is_typing` is never left true after the run ends.  `TypingWorker.run`
emits exactly one signal on every path and both `handle_typing_finished`
and `handle_typing_error` reset both flags. -/
theorem C1_session_flags_cleared (w : Worker) (cancelAt failAt : Option Nat)
    (s : SessionState) (a : AutoCtl) :
    (sessionAfterRun s (runWorker w cancelAt failAt).1).is_typing = false ∧
    (sessionAfterRun s (runWorker w cancelAt failAt).1).stop_event = false ∧
    (auto_type_text_finally a).is_typing = false := by
  cases h : (runWorker w cancelAt failAt).1 <;>
    simp [sessionAfterRun, handle_typing_finished, handle_typing_error,
      auto_type_text_finally]

/-- Claim C5: with no cancellation and no emitter failure, characters and
lines are emitted strictly in input order with `enter` after every line
except the last and no trailing enter; text `"ab"` gives outcome
`completed` with keys `[a, b]`, and `"a\nb"` gives `[a, enter, b]`. -/
theorem C5_strict_order_and_enters :
    (∀ w : Worker, (runWorker w none none).1 = Outcome.completed ∧
      keysOf (runWorker w none none).2.evs =
        expectedLinesKeys (pySplit '\n' (workerFormat w))) ∧
    keysOf (runWorker (mkTypingWorker (("ab").toList) 0 (("text").toList) 0)
        none none).2.evs = [Key.char ('a'), Key.char ('b')] ∧
    keysOf (runWorker (mkTypingWorker (("a\nb").toList) 0 (("text").toList) 0)
        none none).2.evs = [Key.char ('a'), Key.enter, Key.char ('b')] := by
  refine ⟨runWorker_none, ?_, ?_⟩
  · rw [(runWorker_none _).2]; decide
  · rw [(runWorker_none _).2]; decide

/-- Claim C3 (amended): in the `typer.py` variant, a stop request observed
at any check during the start-delay countdown makes the run return
`stoppedBeforeStart` with zero key events, and an uncancelled countdown
checks the flag once per iteration, sleeping exactly 0.05 s each time.
(The `auto_typer.py` variant has no such checks; see the
counterexample.) -/
theorem C3_amended_countdown_stop (w : Worker) (k : Nat) (failAt : Option Nat)
    (h : k < fuelCountdown w.start_delay) :
    (runWorker w (some k) failAt).1 = Outcome.stoppedBeforeStart ∧
    keysOf (runWorker w (some k) failAt).2.evs = [] ∧
    (∀ n (st : St), countdownLoop none n st =
      (false, { st with
        ci := st.ci + n
        evs := st.evs ++ List.replicate n (Event.sleep (1 / 20)) })) := by
  refine ⟨?_, ?_, fun n st => countdownLoop_none n st⟩
  · rw [runWorker, countdownLoop_cancel k _ _ (by simp) (by simpa using h)]
    simp
  · rw [runWorker, countdownLoop_cancel k _ _ (by simp) (by simpa using h)]
    simp [keysOf_replicate_sleep, keysOf]

/-- Claim C3 witness: stopping at the very first check of a 1-second
countdown ends the run with `stoppedBeforeStart`. -/
theorem C3_amended_countdown_stop_witness :
    (runWorker (mkTypingWorker (("ab").toList) 0 (("text").toList) 1)
      (some 0) none).1 = Outcome.stoppedBeforeStart :=
  (C3_amended_countdown_stop (mkTypingWorker (("ab").toList) 0 (("text").toList) 1)
    0 none (by norm_num [fuelCountdown, mkTypingWorker])).1

/-- Claim C3 counterexample: in `auto_typer.py`, a stop request issued
during the 1-second-per-tick countdown is answered "No typing in
progress", the scheduled countdown still fires and starts the run
(`is_typing` true, one thread spawned), and the uncancelled run over text
`"a"` emits a key — not zero key events and not `stoppedBeforeStart`. -/
theorem C3_counterexample_stop_in_countdown :
    (auto_stop_typing (auto_start_typing (("a").toList) 1 autoIdle)).status
        = "No typing in progress" ∧
    (auto_fire_next (auto_stop_typing
        (auto_start_typing (("a").toList) 1 autoIdle))).runs = 1 ∧
    (auto_fire_next (auto_stop_typing
        (auto_start_typing (("a").toList) 1 autoIdle))).is_typing = true ∧
    keysOf (type_normal_text none 0 (("text").toList) (("a").toList))
      = [Key.char ('a')] := by decide

/-- Claim C2 (amended): in the `typer.py` variant, a first start on an idle
session spawns exactly one run and sets `is_typing`, and a second start
issued before the run completes is a no-op: it reports "Typing already in
progress.", spawns nothing, and leaves the session state (including the
stop event driving the in-flight run) unchanged. -/
theorem C2_amended_second_start_noop (s : SessionState) (t1 t2 : List Char)
    (h1 : s.is_typing = false) (h2 : pyStrip t1 ≠ []) :
    (on_start_clicked s t1).2.2 = true ∧
    (on_start_clicked s t1).1.is_typing = true ∧
    on_start_clicked (on_start_clicked s t1).1 t2 =
      ((on_start_clicked s t1).1, "Typing already in progress.", false) := by
  simp [on_start_clicked, h1, h2]

/-- Claim C2 witness: the double-start sequence at concrete inputs. -/
theorem C2_amended_second_start_noop_witness :
    on_start_clicked (on_start_clicked { is_typing := false, stop_event := false }
        (("ab").toList)).1 (("ab").toList) =
      ((on_start_clicked { is_typing := false, stop_event := false }
        (("ab").toList)).1, "Typing already in progress.", false) :=
  (C2_amended_second_start_noop { is_typing := false, stop_event := false }
    (("ab").toList) (("ab").toList) rfl (by decide)).2.2

/-- Claim C2 counterexample: in `auto_typer.py`, two start requests in
rapid succession (the second during the first's countdown, before the
first run begins) both pass the `is_typing` check — the second does not
report "already in progress" — and once the two scheduled countdowns fire,
two typing threads have been started, not one. -/
theorem C2_counterexample_double_start :
    (auto_start_typing (("ab").toList) 1
        (auto_start_typing (("ab").toList) 1 autoIdle)).status ≠
      "Typing is already in progress!" ∧
    (auto_fire_next (auto_fire_next (auto_start_typing (("ab").toList) 1
        (auto_start_typing (("ab").toList) 1 autoIdle)))).runs = 2 := by decide

/-- Claim C10: the worker constructor clamps the speed and start delay with
`max(0.0, ...)`, so negative configuration values are stored as the
claimed `max 0` and behave exactly like zero throughout the run. -/
theorem C10_negative_config_clamped (text lang : List Char)
    (speed start_delay : ℚ) (hs : speed ≤ 0) (hd : start_delay ≤ 0) :
    (mkTypingWorker text speed lang start_delay).speed = max 0 speed ∧
    (mkTypingWorker text speed lang start_delay).start_delay = max 0 start_delay ∧
    mkTypingWorker text speed lang start_delay = mkTypingWorker text 0 lang 0 ∧
    (∀ cancelAt failAt,
      runWorker (mkTypingWorker text speed lang start_delay) cancelAt failAt =
        runWorker (mkTypingWorker text 0 lang 0) cancelAt failAt) := by
  have h1 : mkTypingWorker text speed lang start_delay =
      mkTypingWorker text 0 lang 0 := by
    simp [mkTypingWorker, max_eq_left hs, max_eq_left hd]
  exact ⟨rfl, rfl, h1, fun c f => by rw [h1]⟩

/-- Claim C10 witness: speed and delay `-1` build the same worker as `0`. -/
theorem C10_negative_config_clamped_witness :
    mkTypingWorker [] (-1) (("text").toList) (-1) =
      mkTypingWorker [] 0 (("text").toList) 0 :=
  (C10_negative_config_clamped [] (("text").toList) (-1) (-1)
    (by norm_num) (by norm_num)).2.2.1

/-- Claim C8: applying a hotkey binding whose start combo equals its stop
combo fails with the equal-hotkeys error in both variants, performs no
registration, and leaves the previous state (stored combos and live
listener generation in `typer.py`, the dialog `result` in
`auto_typer.py`) unchanged. -/
theorem C8_equal_hotkeys_rejected (a b : List Char) (s : HkState)
    (heq : pyLower (pyStrip a) = pyLower (pyStrip b))
    (hne : pyLower (pyStrip a) ≠ []) :
    on_apply_hotkeys a b s = (ApplyResult.equalError, s) ∧
    (∀ r : Option (List Char × List Char), ok_clicked a b r = (r, false)) := by
  constructor
  · simp [on_apply_hotkeys, ← heq, hne]
  · intro r
    simp [ok_clicked, ← heq, hne]

/-- Claim C8 witness: equal combos `ctrl+shift+s` are rejected with the
state untouched. -/
theorem C8_equal_hotkeys_rejected_witness :
    on_apply_hotkeys (("ctrl+shift+s").toList) (("ctrl+shift+s").toList)
        { start_hotkey := [], stop_hotkey := [], listenerGen := 0 } =
      (ApplyResult.equalError,
        { start_hotkey := [], stop_hotkey := [], listenerGen := 0 }) :=
  (C8_equal_hotkeys_rejected (("ctrl+shift+s").toList) (("ctrl+shift+s").toList)
    { start_hotkey := [], stop_hotkey := [], listenerGen := 0 }
    rfl (by decide)).1

/-- Claim C6 counterexample: `to_pynput_hotkey("ctrl+")` does not fail —
the list comprehension filters out the empty token after the trailing
`+`, leaving the single token `ctrl`, which is returned as a bare key. -/
theorem C6_counterexample_trailing_plus :
    to_pynput_hotkey (("ctrl+").toList) = Except.ok (("ctrl").toList) := rfl

/-- Claim C6 (amended): hotkey parsing fails (with `ValueError("Empty
hotkey")`) exactly when no nonempty token remains after splitting on `+`
and trimming — an input that is empty or all `+`/whitespace.  A trailing
`+` after a nonempty token is accepted, the last nonempty token serving as
the key: `parse("")` and `parse("+")` fail, `parse("ctrl+") = ctrl`. -/
theorem C6_amended_empty_token_filter :
    (∀ hk : List Char,
      (to_pynput_hotkey hk = Except.error (("Empty hotkey").toList) ↔
        hotkeyParts hk = [])) ∧
    to_pynput_hotkey [] = Except.error (("Empty hotkey").toList) ∧
    to_pynput_hotkey (("+").toList) = Except.error (("Empty hotkey").toList) ∧
    to_pynput_hotkey (("ctrl+").toList) = Except.ok (("ctrl").toList) := by
  refine ⟨?_, rfl, rfl, rfl⟩
  intro hk
  rcases h : hotkeyParts hk with _ | ⟨p, _ | ⟨q, rest⟩⟩ <;> simp [to_pynput_hotkey, h]

/-- The `rstrip` transform splits a line into its kept prefix and an all-whitespace
dropped suffix: the transform strips only trailing whitespace, so content
and leading whitespace are preserved. -/
theorem pyRstripWs_spec (l : List Char) :
    pyRstripWs l ++ l.drop (pyRstripWs l).length = l ∧
    ∀ c ∈ l.drop (pyRstripWs l).length, isPySpace c := by
  have key : pyRstripWs l ++ (l.reverse.takeWhile isPySpace).reverse = l := by
    rw [pyRstripWs, ← List.reverse_append, List.takeWhile_append_dropWhile,
      List.reverse_reverse]
  have hdrop : l.drop (pyRstripWs l).length =
      (l.reverse.takeWhile isPySpace).reverse := by
    nth_rewrite 2 [← key]
    rw [List.drop_left]
  refine ⟨by rw [hdrop, key], ?_⟩
  intro c hc
  rw [hdrop, List.mem_reverse] at hc
  exact List.mem_takeWhile_imp hc

/-- Claim C7 counterexample: the `auto_typer.py` python formatter drops the
empty line of `"a\n\nb"`, while the claimed transform (strip trailing
whitespace per line, drop no content — the `typer.py` behaviour) keeps
it. -/
theorem C7_counterexample_line_dropped :
    format_python_code (("a\n\nb").toList) = ("a\nb").toList ∧
    format_python (("a\n\nb").toList) = ("a\n\nb").toList ∧
    ("a\nb").toList ≠ ("a\n\nb").toList := by decide

/-- Claim C7 (amended): within each variant all code languages apply one
and the same total transform.  In `typer.py` it is exactly the claimed
one — split into lines, strip trailing whitespace per line (the dropped
suffix is all whitespace, so content and leading whitespace are
preserved), drop no line.  In `auto_typer.py` the common transform instead
also drops empty lines and rebuilds indentation (see the
counterexample). -/
theorem C7_amended_uniform_formatters :
    (∀ txt : List Char, format_python txt = format_c_style txt) ∧
    (∀ txt : List Char, format_cpp_code txt = format_python_code txt ∧
      format_java_code txt = format_python_code txt ∧
      format_javascript_code txt = format_python_code txt ∧
      format_csharp_code txt = format_python_code txt) ∧
    (∀ txt : List Char,
      format_python txt = pyJoinNl ((pySplitlines txt).map pyRstripWs) ∧
      ((pySplitlines txt).map pyRstripWs).length = (pySplitlines txt).length) ∧
    (∀ l : List Char, pyRstripWs l ++ l.drop (pyRstripWs l).length = l ∧
      ∀ c ∈ l.drop (pyRstripWs l).length, isPySpace c) := by
  exact ⟨fun txt => rfl, fun txt => ⟨rfl, rfl, rfl, rfl⟩,
    fun txt => ⟨rfl, List.length_map _ _⟩, pyRstripWs_spec⟩

/-- Characters of a join come from the separator or from one of the
parts. -/
theorem mem_pyJoin (sep : List Char) (ls : List (List Char)) (c : Char) :
    c ∈ pyJoin sep ls → c ∈ sep ∨ ∃ t ∈ ls, c ∈ t := by
  induction ls with
  | nil => intro h; simp [pyJoin] at h
  | cons x rest ih =>
    cases rest with
    | nil =>
      intro h
      rw [pyJoin] at h
      exact Or.inr ⟨x, by simp, h⟩
    | cons y rest2 =>
      intro h
      rw [pyJoin] at h
      rcases List.mem_append.1 h with h1 | h2
      · rcases List.mem_append.1 h1 with h3 | h4
        · exact Or.inr ⟨x, by simp, h3⟩
        · exact Or.inl h4
      · rcases ih h2 with h5 | ⟨t, ht, hc⟩
        · exact Or.inl h5
        · exact Or.inr ⟨t, by simp at ht ⊢; tauto, hc⟩

/-- A string with no whitespace character is unchanged by `strip()`. -/
theorem pyStrip_no_space (l : List Char) (h : ∀ c ∈ l, isPySpace c = false) :
    pyStrip l = l := by
  have hl : pyLstripWs l = l := by
    cases l with
    | nil => rfl
    | cons c rest =>
      rw [pyLstripWs, List.dropWhile_cons]
      simp [h c (by simp)]
  have hr : ∀ m : List Char, (∀ c ∈ m, isPySpace c = false) → pyRstripWs m = m := by
    intro m hm
    rw [pyRstripWs]
    cases hrev : m.reverse with
    | nil => simp_all
    | cons c rest =>
      rw [List.dropWhile_cons]
      have : isPySpace c = false := by
        apply hm
        rw [← List.mem_reverse, hrev]
        simp
      simp [this, ← hrev]
  rw [pyStrip, hl, hr l h]

/-- The function `List.map` distributes over a join. -/
theorem map_pyJoin (f : Char → Char) (sep : List Char) (ls : List (List Char)) :
    List.map f (pyJoin sep ls) = pyJoin (sep.map f) (ls.map (List.map f)) := by
  induction ls with
  | nil => rfl
  | cons x rest ih =>
    cases rest with
    | nil => rfl
    | cons y rest2 =>
      rw [pyJoin, List.map_append, List.map_append, ih]
      rfl

/-- Splitting a separator-free string gives the single piece back. -/
theorem pySplit_nosep (sep : Char) (t : List Char) (h : ∀ c ∈ t, ¬c = sep) :
    pySplit sep t = [t] := by
  induction t with
  | nil => rfl
  | cons c rest ih =>
    simp only [pySplit, ih (fun d hd => h d (by simp [hd]))]
    simp [h c (by simp)]

/-- Splitting a string that starts with a separator-free piece followed by
a separator peels off that piece. -/
theorem pySplit_append_nosep (sep : Char) (t r : List Char)
    (h : ∀ c ∈ t, ¬c = sep) :
    pySplit sep (t ++ sep :: r) = t :: pySplit sep r := by
  induction t with
  | nil => simp [pySplit]
  | cons c rest ih =>
    rw [List.cons_append]
    simp only [pySplit, ih (fun d hd => h d (by simp [hd]))]
    simp [h c (by simp)]

/-- Splitting a `+`-join of `+`-free tokens returns the tokens. -/
theorem pySplit_pyJoin (ts : List (List Char)) (hne : ts ≠ [])
    (h : ∀ t ∈ ts, ∀ c ∈ t, ¬c = '+') :
    pySplit '+' (pyJoin [ '+' ] ts) = ts := by
  induction ts with
  | nil => exact absurd rfl hne
  | cons x rest ih =>
    cases rest with
    | nil =>
      rw [pyJoin]
      exact pySplit_nosep '+' x (h x (by simp))
    | cons y rest2 =>
      rw [pyJoin, List.append_assoc, List.singleton_append,
        pySplit_append_nosep '+' x _ (h x (by simp)),
        ih (by simp) (fun t ht c hc => h t (by simp [ht]) c hc)]

/-- Claim C9 counterexample: the `auto_typer.py` renderer capitalizes only
the whole string's first character (Python `str.capitalize`), so
`ctrl+shift+s` displays as `Ctrl+shift+s`, not the claimed per-token
`Ctrl+Shift+S`. -/
theorem C9_counterexample_display_capitalize :
    format_hotkey_for_display (("<ctrl>+<shift>+s").toList) =
      ("Ctrl+shift+s").toList ∧
    ("Ctrl+shift+s").toList ≠ ("Ctrl+Shift+S").toList := by decide

/-- Claim C9 (amended): in the `typer.py` variant the display path —
`pretty_hotkey_display` applied to the `strip().lower()`-normalized
combo — capitalizes every token and rejoins with `+`, preserving token
order, for any list of (at least two) `+`-free, whitespace-free,
already-lowercase tokens; and it is insensitive to the raw input's case,
as the concrete pair shows.  (`auto_typer.py`'s renderer does not; see the
counterexample.) -/
theorem C9_amended_display_round_trip (ts : List (List Char))
    (hlen : 2 ≤ ts.length)
    (hplus : ∀ t ∈ ts, ∀ c ∈ t, ¬c = '+')
    (hsp : ∀ t ∈ ts, ∀ c ∈ t, isPySpace c = false)
    (hlow : ∀ t ∈ ts, pyLower t = t) :
    pretty_hotkey_display (pyLower (pyStrip (pyJoin [ '+' ] ts))) =
      pyJoin [ '+' ] (ts.map pyCapitalize) ∧
    pretty_hotkey_display (pyLower (pyStrip (("ctrl+shift+s").toList))) =
      ("Ctrl+Shift+S").toList ∧
    pretty_hotkey_display (pyLower (pyStrip (("CTRL+Shift+S").toList))) =
      ("Ctrl+Shift+S").toList := by
  refine ⟨?_, by decide, by decide⟩
  have hstrip : pyStrip (pyJoin [ '+' ] ts) = pyJoin [ '+' ] ts := by
    apply pyStrip_no_space
    intro c hc
    rcases mem_pyJoin _ _ _ hc with h1 | ⟨t, ht, hct⟩
    · simp at h1
      subst h1
      decide
    · exact hsp t ht c hct
  have hlower : pyLower (pyJoin [ '+' ] ts) = pyJoin [ '+' ] ts := by
    rw [pyLower, map_pyJoin]
    have h1 : List.map Char.toLower [ '+' ] = [ '+' ] := by decide
    have h2 : ts.map (List.map Char.toLower) = ts := by
      rw [show (List.map Char.toLower) = pyLower from rfl]
      calc ts.map pyLower = ts.map id := List.map_congr_left hlow
        _ = ts := List.map_id ts
    rw [h1, h2]
  rw [hstrip, hlower, pretty_hotkey_display,
    pySplit_pyJoin ts (by intro h; subst h; simp at hlen) hplus]

/-- Claim C9 witness: the round trip at the tokens of `ctrl+shift+s`. -/
theorem C9_amended_display_round_trip_witness :
    pretty_hotkey_display (pyLower (pyStrip (pyJoin [ '+' ]
        [("ctrl").toList, ("shift").toList, ("s").toList]))) =
      pyJoin [ '+' ]
        ([("ctrl").toList, ("shift").toList, ("s").toList].map pyCapitalize) :=
  (C9_amended_display_round_trip
    [("ctrl").toList, ("shift").toList, ("s").toList]
    (by decide) (by decide) (by decide) (by decide)).1

/-- At speed `0.01` the inter-keystroke sleep loop runs exactly one
iteration: one check, one sleep of `0.01` seconds. -/
theorem charSleepLoop_centisecond (st : St) :
    charSleepLoop none (1 / 100) (fuelChar (1 / 100)) 0 st =
      (false, { st with ci := st.ci + 1, evs := st.evs ++ [Event.sleep (1 / 100)] }) := by
  have hf : fuelChar (1 / 100) = 2 := by
    norm_num [fuelChar]
  have c1 : ((0 : ℚ) < 1 / 100) = True := by norm_num
  have c2 : min (1 / 100 : ℚ) (1 / 100 - 0) = 1 / 100 := by norm_num
  have c3 : ((0 + 1 / 100 : ℚ) < 1 / 100) = False := by norm_num
  rw [hf]
  simp only [charSleepLoop, cancelSet_none, Bool.false_eq_true, if_false,
    c1, c2, c3, if_true]

/-- Claim C4 counterexample: in `typer.py` the sleep after a tab is the
same full `speed` sleep as after any other character — for `"a\tb"` at
speed `0.01` the trace sleeps `0.01` after the tab, and `0.01` is not
`0.01 * 0.5` as the claim requires. -/
theorem C4_counterexample_tab_sleep :
    typeChars none none (1 / 100) [ 'a', '\t', 'b' ]
        { ci := 0, ei := 0, evs := [] } =
      (none, { ci := 6
               ei := 3
               evs := [Event.key (Key.char ('a')), Event.sleep (1 / 100),
                 Event.key Key.tab, Event.sleep (1 / 100),
                 Event.key (Key.char ('b')), Event.sleep (1 / 100)] }) ∧
    ¬((1 : ℚ) / 100 = 1 / 100 * (1 / 2)) := by
  constructor
  · have ka : charKey ('a') = Key.char ('a') := by decide
    have kt : charKey ('\t') = Key.tab := by decide
    have kb : charKey ('b') = Key.char ('b') := by decide
    simp only [typeChars, cancelSet_none, emitRaises_none, Bool.false_eq_true,
      if_false, charSleepLoop_centisecond, ka, kt, kb]
    simp
  · norm_num

/-- Claim C4 (amended): both variants emit `[a, tab, b]` for `"a\tb"`; in
the `auto_typer.py` variant the tab is followed by a sleep of
`speed * 0.5` while ordinary characters sleep `speed`, but in the
`typer.py` variant the sleep after a tab is the same `speed` as after any
other character (see the counterexample). -/
theorem C4_amended_tab_behavior (speed : ℚ) :
    keysOf (runWorker (mkTypingWorker (("a\tb").toList) speed (("text").toList) 0)
        none none).2.evs = [Key.char ('a'), Key.tab, Key.char ('b')] ∧
    type_normal_text none speed (("text").toList) (("a\tb").toList) =
      [Event.key (Key.char ('a')), Event.sleep speed, Event.key Key.tab,
        Event.sleep (speed * (1 / 2)), Event.key (Key.char ('b')),
        Event.sleep speed] := by
  constructor
  · rw [(runWorker_none _).2]
    rfl
  · rfl
